import Mathlib

/-!
Verification of the duration-statistics core of `analyze_video_durations.py`
(class `VideoStatsProcessor`).

The shallow embedding below mirrors, definition by definition:

* `parse_duration` (lines 83-91): the string is matched against the
  `strptime` pattern for the format string percent-H colon percent-M colon
  percent-S.  The compiled pattern accepts, between literal colons, an hour
  field of one or two ASCII digits with two-digit values capped at 23, a
  minute field capped at 59 and a second field capped at 61; the whole
  string must be consumed.  The resulting `datetime` constructor then
  rejects second values 60 and 61, and every rejection is caught by the
  surrounding try/except, which returns 0.  (Unicode digits, accepted by
  the Python regex class for digits, are not modelled; ASCII digits only.)
* `seconds_to_hms` (lines 93-97): divmod by 3600 and 60, hours rendered
  unpadded, minutes and seconds zero-padded to two digits.
* the bucket histogram of `process_folder` (lines 180-188), with Python
  floats modelled as exact rationals and the built-in `round` (half to
  even) modelled by `pyRound`.
* `process_folder`'s skip logic (lines 129-169) and its per-item
  collection loop (lines 148-158).
* the processed-folder set and the loops of `run_initial_processing`
  (lines 245-260), `check_new_folders` (lines 262-279), `run_monitoring`
  (lines 281-299) and `main` (lines 301-311).  A call of `process_folder`
  is abstracted as `Option Bool`: `some ok` is a normal return with value
  `ok`, `none` is an exception escaping the call (e.g. the unprotected
  manifest listing failing), which aborts the enclosing loop before the
  save of the processed set.
-/

/-- ASCII digit test: the digit class of the compiled strptime pattern,
restricted to ASCII. -/
def isAsciiDigit (c : Char) : Bool := 48 ≤ c.toNat && c.toNat ≤ 57

/-- Numeric value of an ASCII digit character. -/
def digitVal (c : Char) : Nat := c.toNat - 48

/-- One field of the strptime pattern: one or two ASCII digits.  The upper
cap on two-digit values (23, 59 or 61 depending on the directive) is
checked by the caller on the numeric value; a single digit is always below
every cap. -/
def parseField : List Char → Option Nat
  | [c] => if isAsciiDigit c then some (digitVal c) else none
  | [c₁, c₂] =>
    if isAsciiDigit c₁ && isAsciiDigit c₂ then some (10 * digitVal c₁ + digitVal c₂)
    else none
  | _ => none

/-- Split a character list at every colon.  Matching the strptime pattern
for the hour-colon-minute-colon-second format against a whole string is
equivalent to splitting at colons and matching the three fields, because
the fields themselves never match a colon. -/
def splitOnColon : List Char → List (List Char)
  | [] => [[]]
  | c :: cs =>
    let r := splitOnColon cs
    if c = ':' then [] :: r
    else (c :: r.headD []) :: r.tail

/-- The `datetime.strptime` call of `parse_duration`: three colon-separated
digit fields, hours at most 23, minutes at most 59, seconds at most 61 (the
pattern admits leap seconds; the `datetime` constructor re-checks below). -/
def strptimeHMS (s : List Char) : Option (Nat × Nat × Nat) :=
  match splitOnColon s with
  | [hf, mf, sf] =>
    match parseField hf, parseField mf, parseField sf with
    | some h, some m, some sec =>
      if h ≤ 23 ∧ m ≤ 59 ∧ sec ≤ 61 then some (h, m, sec) else none
    | _, _, _ => none
  | _ => none

/-- `VideoStatsProcessor.parse_duration` (lines 83-91).  On a successful
match the `datetime` constructor still rejects second values 60 and 61;
that exception, like a match failure, is caught and turned into 0.  The
returned Python int is always nonnegative, hence the codomain `Nat`. -/
def parse_duration (s : String) : Nat :=
  match strptimeHMS s.data with
  | some (h, m, sec) => if sec ≤ 59 then h * 3600 + m * 60 + sec else 0
  | none => 0

/-- Decimal rendering, fuel-driven so that it is structural (the fuel
`n + 1` always suffices since a number shrinks by a factor of ten per
digit). -/
def natReprAux : Nat → Nat → List Char
  | 0, _ => []
  | fuel + 1, n =>
    if n < 10 then [Nat.digitChar n]
    else natReprAux fuel (n / 10) ++ [Nat.digitChar (n % 10)]

/-- Decimal rendering of a natural number, most significant digit first:
the f-string rendering of a Python int. -/
def natReprL (n : Nat) : List Char := natReprAux (n + 1) n

/-- The f-string format item padding an int to two digits with zeros. -/
def pad2 (n : Nat) : List Char :=
  if n < 10 then '0' :: natReprL n else natReprL n

/-- `VideoStatsProcessor.seconds_to_hms` (lines 93-97): divmod by 3600,
then by 60; hours unpadded, minutes and seconds zero-padded to two
digits. -/
def seconds_to_hms (seconds : Nat) : String :=
  ⟨natReprL (seconds / 3600) ++ ':' :: pad2 (seconds % 3600 / 60) ++ ':' :: pad2 (seconds % 3600 % 60)⟩

/-- The canonical rendering of an hour/minute/second triple under the
documented padding rules (hours unpadded, minutes and seconds zero-padded
to two digits).  Stated from the padding rules of the specification, for
comparison with `seconds_to_hms`. -/
def canonicalHMS (h m s : Nat) : String :=
  ⟨natReprL h ++ ':' :: pad2 m ++ ':' :: pad2 s⟩

/-- The five half-open duration buckets of `process_folder` (line 180):
lower bound inclusive, upper bound exclusive, `none` standing for the
unbounded top bucket. -/
def ranges : List (Nat × Option Nat) :=
  [(0, some 1800), (1800, some 2400), (2400, some 3000), (3000, some 3600), (3600, none)]

/-- Membership of a duration in one bucket: the comparison chain of the
list comprehension on line 185. -/
def inRange (r : Nat × Option Nat) (d : Nat) : Bool :=
  decide (r.1 ≤ d) && (match r.2 with | some hi => decide (d < hi) | none => true)

/-- The five bucket counts of the distribution loop (lines 184-187). -/
def bucketCounts (ds : List Nat) : List Nat :=
  ranges.map fun r => (ds.filter (inRange r)).length

/-- Python's built-in `round` to an integer: round half to even, on exact
rationals (floats are modelled as exact rationals throughout). -/
def pyRound (q : ℚ) : ℤ :=
  if q - ⌊q⌋ < 1 / 2 then ⌊q⌋
  else if 1 / 2 < q - ⌊q⌋ then ⌊q⌋ + 1
  else if ⌊q⌋ % 2 = 0 then ⌊q⌋ else ⌊q⌋ + 1

/-- Python's `round(q, k)`: rounding to `k` decimal places. -/
def roundTo (k : Nat) (q : ℚ) : ℚ := (pyRound (10 ^ k * q) : ℚ) / 10 ^ k

/-- The unrounded percentage of one bucket (line 186):
`(count / total_videos) * 100`. -/
def pct (ds : List Nat) (r : Nat × Option Nat) : ℚ :=
  ((ds.filter (inRange r)).length : ℚ) / (ds.length : ℚ) * 100

/-- The five bucket percentages as stored (line 188): each rounded to one
decimal place. -/
def bucketPercents (ds : List Nat) : List ℚ :=
  ranges.map fun r => roundTo 1 (pct ds r)

/-- `statistics.median`: middle element of the sorted data for odd length,
mean of the two middle elements for even length. -/
def medianQ (ds : List Nat) : ℚ :=
  let sorted := List.insertionSort (· ≤ ·) ds
  let n := sorted.length
  if n % 2 = 1 then (sorted.getD (n / 2) 0 : ℚ)
  else ((sorted.getD (n / 2 - 1) 0 : ℚ) + (sorted.getD (n / 2) 0 : ℚ)) / 2

/-- The per-folder statistics record assembled by `process_folder`
(lines 171-209): totals, mean, extrema, median — in seconds and rendered —
and the bucket distribution.  The folder name and wall-clock timestamp
columns are supplied by the caller side and carry no computed content. -/
structure FolderStats where
  total : Nat
  totalSeconds : Nat
  totalHMS : String
  avgRounded : ℚ
  avgHMS : String
  minSec : Nat
  minHMS : String
  maxSec : Nat
  maxHMS : String
  medianSec : ℚ
  medianHMS : String
  counts : List Nat
  percents : List ℚ

/-- Statistics computation of `process_folder` on a nonempty sample list
(lines 171-188): the Python `int()` truncation applied by `seconds_to_hms`
to the fractional mean and median is floor, both being nonnegative. -/
def computeStats (ds : List Nat) : FolderStats :=
  { total := ds.length
  , totalSeconds := ds.sum
  , totalHMS := seconds_to_hms ds.sum
  , avgRounded := roundTo 2 ((ds.sum : ℚ) / (ds.length : ℚ))
  , avgHMS := seconds_to_hms (Int.toNat ⌊(ds.sum : ℚ) / (ds.length : ℚ)⌋)
  , minSec := ds.min?.getD 0
  , minHMS := seconds_to_hms (ds.min?.getD 0)
  , maxSec := ds.max?.getD 0
  , maxHMS := seconds_to_hms (ds.max?.getD 0)
  , medianSec := medianQ ds
  , medianHMS := seconds_to_hms (Int.toNat ⌊medianQ ds⌋)
  , counts := bucketCounts ds
  , percents := bucketPercents ds }

/-- The observable outcome of one manifest item inside the reading loop of
`process_folder` (lines 148-158): `none` is an exception during fetch or
JSON decoding (item skipped); `some none` a manifest whose duration field
is absent or null; `some (some s)` a manifest carrying duration text `s`
(the empty string is falsy in Python and is skipped by the truthiness
test, like any non-string value, which fails inside `parse_duration`). -/
abbrev ManifestItem : Type := Option (Option String)

/-- The sample list accumulated by the reading loop (lines 148-158): only
items with a truthy duration field whose parse is strictly positive are
appended, in file order. -/
def collectDurations : List ManifestItem → List Nat
  | [] => []
  | item :: rest =>
    let tail := collectDurations rest
    match item with
    | some (some s) =>
      if s = "" then tail
      else if parse_duration s > 0 then parse_duration s :: tail else tail
    | _ => tail

/-- The outcome of a `process_folder` call that returns normally: the
boolean return value, the summary record written to the statistics CSV
(`none` when nothing is written) and the raw per-item duration column. -/
structure ProcessResult where
  ok : Bool
  statsOut : Option FolderStats
  rawOut : Option (List Nat)

/-- `VideoStatsProcessor.process_folder` (lines 129-243) on the item
outcomes of one folder: an empty manifest listing returns False before any
output (lines 140-142), an empty valid-sample list returns False before
any output (lines 167-169), and otherwise both output files are written
and True is returned. -/
def process_folder (items : List ManifestItem) : ProcessResult :=
  if items = [] then ⟨false, none, none⟩
  else
    let ds := collectDurations items
    if ds = [] then ⟨false, none, none⟩
    else ⟨true, some (computeStats ds), some ds⟩

/-- The caller-side update of the processed set around one normally
returning `process_folder` call (lines 256-257 and 273-274): the folder is
added exactly when True came back. -/
def folderStep (items : List ManifestItem) (st : Finset String) (name : String) : Finset String :=
  if (process_folder items).ok then insert name st else st

/-- One run of the folder loop shared by `run_initial_processing`
(lines 252-257) and `check_new_folders` (lines 269-274).  A call of
`process_folder` is abstracted by `proc`: `some ok` is a normal return,
`none` an exception escaping it, which aborts the loop at that folder.
Returns the folders actually passed to `process_folder`, the resulting
in-memory processed set, and whether an exception escaped. -/
def foldersLoop (proc : String → Option Bool) :
    List String → Finset String → List String × Finset String × Bool
  | [], st => ([], st, false)
  | f :: fs, st =>
    match proc f with
    | none => ([f], st, true)
    | some ok =>
      let st' := if ok then insert f st else st
      let r := foldersLoop proc fs st'
      (f :: r.1, r.2.1, r.2.2)

/-- Lexicographic comparison of character lists by code point: the string
order Python's `sorted` uses. -/
def charListLe : List Char → List Char → Bool
  | [], _ => true
  | _ :: _, [] => false
  | a :: as, b :: bs =>
    if a.toNat < b.toNat then true
    else if b.toNat < a.toNat then false
    else charListLe as bs

/-- Python's string order, by code points. -/
def pyStrLe (a b : String) : Prop := charListLe a.data b.data = true

instance : DecidableRel pyStrLe := fun a b => instDecidableEqBool (charListLe a.data b.data) true

/-- The new-folder worklist of one polling iteration: the listed folders
not yet in the processed set, without duplicates, in Python's sorted
order. -/
def newFoldersSorted (listed : List String) (st : Finset String) : List String :=
  List.insertionSort pyStrLe (listed.dedup.filter fun f => decide (f ∉ st))

/-- The observable outcome of one `check_new_folders` call. -/
structure CheckResult where
  attempted : List String
  finalSet : Finset String
  saved : Bool
  raised : Bool

/-- `VideoStatsProcessor.check_new_folders` (lines 262-279): list current
folders, subtract the in-memory processed set, walk the new ones in sorted
order, and save the set afterwards — the save on line 276 is reached only
when no `process_folder` call raised.  The sorted walk over the difference
set is rendered as a sort of the duplicate-free filtered listing; a set
has no duplicates, so the sorted sequence is the same. -/
def check_new_folders (proc : String → Option Bool) (listed : List String)
    (st : Finset String) : CheckResult :=
  let newList := newFoldersSorted listed st
  if newList = [] then ⟨[], st, false, false⟩
  else
    let r := foldersLoop proc newList st
    ⟨r.1, r.2.1, !r.2.2, r.2.2⟩

/-- The observable outcome of `run_initial_processing`. -/
structure InitResult where
  attempted : List String
  finalSet : Finset String
  saves : Nat
  raised : Bool

/-- `VideoStatsProcessor.run_initial_processing` (lines 245-260): walk all
discovered folders and save the set once afterwards — the save on line 259
is reached only when no `process_folder` call raised. -/
def run_initial_processing (proc : String → Option Bool) (folders : List String)
    (st : Finset String) : InitResult :=
  let r := foldersLoop proc folders st
  if r.2.2 then ⟨r.1, r.2.1, 0, true⟩ else ⟨r.1, r.2.1, 1, false⟩

/-- `VideoStatsProcessor.load_processed_folders` (lines 43-48): the
persisted file contents, or `none` when the file does not exist, in which
case the empty set is returned. -/
def load_processed_folders (file : Option (List String)) : Finset String :=
  match file with
  | none => ∅
  | some l => l.toFinset

/-- The two phases `main` can run (lines 301-311). -/
inductive Phase
  | backfill
  | monitor
deriving DecidableEq

/-- The phase sequence of `main` (lines 301-311): with an empty loaded set
the backfill runs first and, when it completes without an escaping
exception, monitoring follows; an exception during backfill is uncaught in
`main` and ends the process before monitoring.  A nonempty loaded set goes
straight to monitoring. -/
def main_phases (proc : String → Option Bool) (file : Option (List String))
    (folders : List String) : List Phase :=
  if load_processed_folders file = ∅ then
    if (run_initial_processing proc folders (load_processed_folders file)).raised then
      [Phase.backfill]
    else [Phase.backfill, Phase.monitor]
  else [Phase.monitor]

/-- What one iteration of the monitoring loop body observes: the
`check_new_folders` call and the following sleep complete (`ok`), an
exception reaches the loop handler (`error`), or a keyboard interrupt
arrives (`interrupt`). -/
inductive IterEvent
  | ok
  | error
  | interrupt
deriving DecidableEq

/-- What the loop does after one iteration: keep going after a wait, or
stop. -/
inductive StepOutcome
  | continueAfter (wait : Nat)
  | stopped
deriving DecidableEq

/-- The polling interval (line 36), in seconds. -/
def CHECK_INTERVAL : Nat := 300

/-- One pass of the while-body of `run_monitoring` (lines 285-299): a
clean iteration sleeps the polling interval, a caught exception sleeps the
fixed 5-second recovery interval, a keyboard interrupt breaks out. -/
def run_monitoring_step : IterEvent → StepOutcome
  | IterEvent.ok => StepOutcome.continueAfter CHECK_INTERVAL
  | IterEvent.error => StepOutcome.continueAfter 5
  | IterEvent.interrupt => StepOutcome.stopped

/-- `VideoStatsProcessor.run_monitoring` (lines 281-299) over a finite
prefix of iteration events: `true` when the loop has stopped within the
prefix, `false` when it is still running after consuming it. -/
def run_monitoring : List IterEvent → Bool
  | [] => false
  | e :: rest =>
    match run_monitoring_step e with
    | StepOutcome.stopped => true
    | StepOutcome.continueAfter _ => run_monitoring rest

lemma digitChar_spec {d : Nat} (hd : d ≤ 9) :
    Nat.digitChar d ≠ ':' ∧ isAsciiDigit (Nat.digitChar d) = true ∧ digitVal (Nat.digitChar d) = d := by
  interval_cases d <;> refine ⟨by decide, by decide, by decide⟩

lemma natReprAux_ne_colon (fuel n : Nat) : ∀ c ∈ natReprAux fuel n, c ≠ ':' := by
  induction fuel generalizing n with
  | zero => intro c hc; simp [natReprAux] at hc
  | succ fuel ih =>
    intro c hc
    rw [natReprAux] at hc
    split at hc
    · simp only [List.mem_singleton] at hc
      subst hc
      exact (digitChar_spec (by omega)).1
    · rw [List.mem_append] at hc
      rcases hc with h | h
      · exact ih (n / 10) c h
      · simp only [List.mem_singleton] at h
        subst h
        exact (digitChar_spec (d := n % 10) (by omega)).1

lemma natReprL_ne_colon (n : Nat) : ∀ c ∈ natReprL n, c ≠ ':' :=
  natReprAux_ne_colon (n + 1) n

lemma pad2_ne_colon (n : Nat) : ∀ c ∈ pad2 n, c ≠ ':' := by
  intro c hc
  rw [pad2] at hc
  split at hc
  · rcases List.mem_cons.mp hc with h | h
    · subst h; decide
    · exact natReprL_ne_colon _ c h
  · exact natReprL_ne_colon _ c hc

lemma natReprL_small {n : Nat} (h : n < 10) : natReprL n = [Nat.digitChar n] := by
  rw [natReprL, natReprAux, if_pos h]

lemma natReprL_two_digit {n : Nat} (h1 : 10 ≤ n) (h2 : n ≤ 99) :
    natReprL n = [Nat.digitChar (n / 10), Nat.digitChar (n % 10)] := by
  obtain ⟨k, rfl⟩ : ∃ k, n = k + 1 := ⟨n - 1, by omega⟩
  rw [natReprL, natReprAux, if_neg (by omega), natReprAux, if_pos (by omega)]
  rfl

lemma parseField_natReprL {n : Nat} (h : n ≤ 99) : parseField (natReprL n) = some n := by
  by_cases h10 : n < 10
  · rw [natReprL_small h10]
    have hs := digitChar_spec (d := n) (by omega)
    simp [parseField, hs.2.1, hs.2.2]
  · rw [natReprL_two_digit (by omega) h]
    have ha := digitChar_spec (d := n / 10) (by omega)
    have hb := digitChar_spec (d := n % 10) (by omega)
    simp [parseField, ha.2.1, ha.2.2, hb.2.1, hb.2.2]
    omega

lemma parseField_pad2 {n : Nat} (h : n ≤ 99) : parseField (pad2 n) = some n := by
  by_cases h10 : n < 10
  · rw [pad2, if_pos h10, natReprL_small h10]
    have hs := digitChar_spec (d := n) (by omega)
    simp [parseField, hs.2.1, hs.2.2]
    simp [isAsciiDigit, digitVal]
  · rw [pad2, if_neg h10]
    exact parseField_natReprL h

lemma splitOnColon_append (a rest : List Char) (ha : ∀ c ∈ a, c ≠ ':') :
    splitOnColon (a ++ ':' :: rest) = a :: splitOnColon rest := by
  induction a with
  | nil => simp [splitOnColon]
  | cons c cs ih =>
    have hc : c ≠ ':' := ha c (by simp)
    rw [List.cons_append, splitOnColon, ih (fun x hx => ha x (by simp [hx]))]
    simp [if_neg hc]

lemma splitOnColon_no_colon (a : List Char) (ha : ∀ c ∈ a, c ≠ ':') :
    splitOnColon a = [a] := by
  induction a with
  | nil => rfl
  | cons c cs ih =>
    have hc : c ≠ ':' := ha c (by simp)
    rw [splitOnColon, ih (fun x hx => ha x (by simp [hx]))]
    simp [if_neg hc]

lemma strptimeHMS_bounds {l : List Char} {h m sec : Nat}
    (hp : strptimeHMS l = some (h, m, sec)) : h ≤ 23 ∧ m ≤ 59 ∧ sec ≤ 61 := by
  unfold strptimeHMS at hp
  split at hp
  · split at hp
    · split at hp
      · simp only [Option.some.injEq, Prod.mk.injEq] at hp
        obtain ⟨rfl, rfl, rfl⟩ := hp
        assumption
      · exact absurd hp (by simp)
    · exact absurd hp (by simp)
  · exact absurd hp (by simp)

lemma strptimeHMS_canonical {h m s : Nat} (hh : h ≤ 99) (hm : m ≤ 99) (hs : s ≤ 99) :
    strptimeHMS (natReprL h ++ ':' :: (pad2 m ++ ':' :: pad2 s))
      = if h ≤ 23 ∧ m ≤ 59 ∧ s ≤ 61 then some (h, m, s) else none := by
  rw [strptimeHMS, splitOnColon_append _ _ (natReprL_ne_colon h),
    splitOnColon_append _ _ (pad2_ne_colon m), splitOnColon_no_colon _ (pad2_ne_colon s)]
  simp only [parseField_natReprL hh, parseField_pad2 hm, parseField_pad2 hs]

/-- C9: for every input string, `parse_duration` returns a value between 0
and 86399 seconds (23:59:59): the strptime hour field only admits 0-23, and
every rejected input yields 0.  Nonnegativity is carried by the `Nat`
codomain, matching the Python value, which is a sum of products of
nonnegative parsed fields. -/
theorem parse_duration_bounded (s : String) : parse_duration s ≤ 86399 := by
  unfold parse_duration
  split
  · rename_i h m sec heq
    have hb := strptimeHMS_bounds heq
    split
    · omega
    · omega
  · omega

/-- C1 (counterexample): the claim admits unbounded hours, but the string
"24:00:00" — hours 24, minutes and seconds in 0-59 — is rejected by the
strptime hour field, parses to 0 and formats back to "0:00:00", not to
"24:00:00", under any padding of the original. -/
theorem hms_round_trip_cex :
    parse_duration "24:00:00" = 0 ∧
    seconds_to_hms (parse_duration "24:00:00") = "0:00:00" ∧
    seconds_to_hms (parse_duration "24:00:00") ≠ "24:00:00" :=
  ⟨by decide, by decide, by decide⟩

/-- C1 (amended): for hours restricted to 0-23 (the range the strptime
hour field accepts) and minutes and seconds in 0-59, parsing and formatting
are mutually inverse on the canonically padded rendering: formatting
`h * 3600 + m * 60 + s` yields the canonical string and parsing it back
returns the same value; e.g. "1:05:09" parses to 3909 and formats back to
"1:05:09". -/
theorem hms_round_trip (h m s : Nat) (hh : h ≤ 23) (hm : m ≤ 59) (hs : s ≤ 59) :
    seconds_to_hms (h * 3600 + m * 60 + s) = canonicalHMS h m s ∧
    parse_duration (canonicalHMS h m s) = h * 3600 + m * 60 + s := by
  constructor
  · unfold seconds_to_hms canonicalHMS
    have e1 : (h * 3600 + m * 60 + s) / 3600 = h := by omega
    have e2 : (h * 3600 + m * 60 + s) % 3600 / 60 = m := by omega
    have e3 : (h * 3600 + m * 60 + s) % 3600 % 60 = s := by omega
    rw [e1, e2, e3]
  · have key := strptimeHMS_canonical (h := h) (m := m) (s := s) (by omega) (by omega) (by omega)
    rw [if_pos ⟨hh, hm, by omega⟩] at key
    have hd : (canonicalHMS h m s).data = natReprL h ++ ':' :: (pad2 m ++ ':' :: pad2 s) := by
      simp [canonicalHMS]
    unfold parse_duration
    rw [hd, key]
    simp [hs]

/-- C1 (witness for the amended round trip, at the documented example
"1:05:09"). -/
theorem hms_round_trip_witness :
    (1 ≤ 23 ∧ 5 ≤ 59 ∧ 9 ≤ 59) ∧
    (seconds_to_hms (1 * 3600 + 5 * 60 + 9) = canonicalHMS 1 5 9 ∧
      parse_duration (canonicalHMS 1 5 9) = 1 * 3600 + 5 * 60 + 9) ∧
    canonicalHMS 1 5 9 = "1:05:09" :=
  ⟨by decide, hms_round_trip 1 5 9 (by decide) (by decide) (by decide), by decide⟩

lemma foldersLoop_mono (proc : String → Option Bool) (fs : List String) :
    ∀ st : Finset String, st ⊆ (foldersLoop proc fs st).2.1 := by
  induction fs with
  | nil => intro st; simp [foldersLoop]
  | cons f fs ih =>
    intro st
    cases hp : proc f with
    | none => simp [foldersLoop, hp]
    | some ok =>
      simp only [foldersLoop, hp]
      refine subset_trans ?_ (ih (if ok then insert f st else st))
      split
      · exact Finset.subset_insert f st
      · exact subset_rfl

lemma foldersLoop_attempted_sub (proc : String → Option Bool) (fs : List String) :
    ∀ st x, x ∈ (foldersLoop proc fs st).1 → x ∈ fs := by
  induction fs with
  | nil => intro st x hx; simp [foldersLoop] at hx
  | cons f fs ih =>
    intro st x hx
    cases hp : proc f with
    | none =>
      simp [foldersLoop, hp] at hx
      simp [hx]
    | some ok =>
      simp only [foldersLoop, hp] at hx
      rcases List.mem_cons.mp hx with rfl | hx
      · simp
      · exact List.mem_cons_of_mem _ (ih _ x hx)

lemma foldersLoop_no_raise (proc : String → Option Bool) (fs : List String) :
    ∀ st, (foldersLoop proc fs st).2.2 = false → (foldersLoop proc fs st).1 = fs := by
  induction fs with
  | nil => intro st _; simp [foldersLoop]
  | cons f fs ih =>
    intro st h
    cases hp : proc f with
    | none => simp [foldersLoop, hp] at h
    | some ok =>
      simp only [foldersLoop, hp] at h ⊢
      rw [ih _ h]

lemma newList_toFinset (listed : List String) (st : Finset String) :
    (newFoldersSorted listed st).toFinset = listed.toFinset \ st := by
  ext x
  simp [newFoldersSorted, List.mem_insertionSort, List.mem_filter, Finset.mem_sdiff]

lemma check_attempted_mem (proc : String → Option Bool) (listed : List String)
    (st : Finset String) :
    ∀ f ∈ (check_new_folders proc listed st).attempted, f ∈ listed.toFinset \ st := by
  intro f hf
  by_cases hL : newFoldersSorted listed st = []
  · simp [check_new_folders, hL] at hf
  · simp only [check_new_folders] at hf
    rw [if_neg hL] at hf
    have hmem : f ∈ newFoldersSorted listed st :=
      foldersLoop_attempted_sub _ _ _ _ hf
    rw [← newList_toFinset listed st]
    exact List.mem_toFinset.mpr hmem

/-- C2 (counterexample): the folders handed to `process_folder` in one
polling iteration are not always exactly the difference set — with
processed set empty and folders B and C listed, an exception escaping the
processing of B ends the iteration before C is ever handed over. -/
theorem check_diff_cex :
    (check_new_folders (fun f : String => if f = "B" then none else some true) ["B", "C"] ∅).attempted
        = ["B"] ∧
    (check_new_folders (fun f : String => if f = "B" then none else some true) ["B", "C"] ∅).attempted.toFinset
        ≠ (["B", "C"] : List String).toFinset \ (∅ : Finset String) :=
  ⟨by decide, by decide⟩

/-- C2 (amended): in every polling iteration the folders handed to
`process_folder` all lie in the difference of the listed set and the
processed set — in particular an already-processed folder is never handed
over — and when no `process_folder` call raises, they are exactly that
difference.  With persisted set containing A and B and discovery listing
A, B and C, only C is processed. -/
theorem check_diff :
    (∀ proc listed st, ∀ f ∈ (check_new_folders proc listed st).attempted,
        f ∈ listed.toFinset \ st ∧ f ∉ st) ∧
    (∀ proc listed st, (check_new_folders proc listed st).raised = false →
        (check_new_folders proc listed st).attempted.toFinset = listed.toFinset \ st) ∧
    (check_new_folders (fun _ : String => (some true : Option Bool)) ["A", "B", "C"] (insert "A" {"B"})).attempted
        = ["C"] := by
  refine ⟨?_, ?_, by decide⟩
  · intro proc listed st f hf
    have hts := check_attempted_mem proc listed st f hf
    exact ⟨hts, (Finset.mem_sdiff.mp hts).2⟩
  · intro proc listed st hr
    by_cases hL : newFoldersSorted listed st = []
    · rw [← newList_toFinset listed st, hL]
      simp [check_new_folders, hL]
    · simp only [check_new_folders] at hr ⊢
      rw [if_neg hL] at hr ⊢
      simp only [Bool.not_eq_false] at hr
      rw [foldersLoop_no_raise _ _ _ hr, newList_toFinset]

/-- C2 (witness for the amended statement, at the documented example). -/
theorem check_diff_witness :
    ("C" ∈ (check_new_folders (fun _ : String => (some true : Option Bool)) ["A", "B", "C"] (insert "A" ({"B"} : Finset String))).attempted) ∧
    ("C" ∈ (["A", "B", "C"] : List String).toFinset \ (insert "A" ({"B"} : Finset String)) ∧
      "C" ∉ (insert "A" ({"B"} : Finset String))) ∧
    ((check_new_folders (fun _ : String => (some true : Option Bool)) ["A", "B", "C"] (insert "A" ({"B"} : Finset String))).raised = false) ∧
    (check_new_folders (fun _ : String => (some true : Option Bool)) ["A", "B", "C"] (insert "A" ({"B"} : Finset String))).attempted.toFinset
        = (["A", "B", "C"] : List String).toFinset \ (insert "A" ({"B"} : Finset String)) :=
  ⟨by decide,
    check_diff.1 (fun _ : String => (some true : Option Bool)) ["A", "B", "C"]
      (insert "A" ({"B"} : Finset String)) "C" (by decide),
    by decide,
    check_diff.2.1 (fun _ : String => (some true : Option Bool)) ["A", "B", "C"]
      (insert "A" ({"B"} : Finset String)) (by decide)⟩

/-- C4: a folder with an empty manifest listing, or with no strictly
positive parsed duration, yields the False return with neither output
written, and the caller then leaves the processed set unchanged; an add
happens only on a True return. -/
theorem skipped_not_added (items : List ManifestItem) (st : Finset String) (name : String)
    (h : items = [] ∨ collectDurations items = []) :
    process_folder items = ⟨false, none, none⟩ ∧
    folderStep items st name = st ∧
    (∀ items2 st2 n2, (process_folder items2).ok = false → folderStep items2 st2 n2 = st2) := by
  have hpf : process_folder items = ⟨false, none, none⟩ := by
    rcases h with h | h
    · simp [process_folder, h]
    · by_cases hi : items = []
      · simp [process_folder, hi]
      · simp [process_folder, hi, h]
  refine ⟨hpf, ?_, ?_⟩
  · simp [folderStep, hpf]
  · intro items2 st2 n2 h2
    simp [folderStep, h2]

/-- C4 (witness, at a folder whose single manifest has an unparseable
duration, so the valid-sample list is empty). -/
theorem skipped_not_added_witness :
    (collectDurations [some (some "bad")] = []) ∧
    process_folder [some (some "bad")] = ⟨false, none, none⟩ ∧
    folderStep [some (some "bad")] ∅ "F" = ∅ :=
  ⟨by decide, (skipped_not_added [some (some "bad")] ∅ "F" (Or.inr (by decide))).1,
    (skipped_not_added [some (some "bad")] ∅ "F" (Or.inr (by decide))).2.1⟩

/-- C5: `parse_duration` maps the malformed string "bad" to 0, and the
collection loop only ever appends strictly positive parses, so a
zero-valued parse never reaches the statistics computation. -/
theorem invalid_duration_excluded :
    parse_duration "bad" = 0 ∧ ∀ items d, d ∈ collectDurations items → 0 < d := by
  refine ⟨by decide, ?_⟩
  intro items
  induction items with
  | nil => intro d hd; simp [collectDurations] at hd
  | cons item rest ih =>
    intro d hd
    rcases item with _ | (_ | s)
    · exact ih d (by simpa [collectDurations] using hd)
    · exact ih d (by simpa [collectDurations] using hd)
    · by_cases hs : s = ""
      · exact ih d (by simpa [collectDurations, hs] using hd)
      · by_cases hv : parse_duration s > 0
        · simp only [collectDurations, if_neg hs, if_pos hv] at hd
          rcases List.mem_cons.mp hd with rfl | hd
          · exact hv
          · exact ih d hd
        · exact ih d (by simpa [collectDurations, hs, hv] using hd)

/-- C5 (witness: a valid 25-minute sample is collected and is positive). -/
theorem invalid_duration_excluded_witness :
    (1500 ∈ collectDurations [some (some "0:25:00")]) ∧ 0 < 1500 ∧ parse_duration "bad" = 0 :=
  ⟨by decide, invalid_duration_excluded.2 [some (some "0:25:00")] 1500 (by decide),
    invalid_duration_excluded.1⟩

/-- C6 (counterexample): a polling iteration that attempts one new folder
but sees the `process_folder` call raise ends without the save being
reached. -/
theorem save_after_attempt_cex :
    (check_new_folders (fun _ : String => (none : Option Bool)) ["A"] ∅).attempted ≠ [] ∧
    (check_new_folders (fun _ : String => (none : Option Bool)) ["A"] ∅).saved = false :=
  ⟨by decide, by decide⟩

/-- C6 (amended): in every polling iteration that attempts at least one
new folder and in which no `process_folder` call raises, the processed set
is saved by the end of the iteration; an escaping exception aborts the
iteration before the save. -/
theorem save_after_clean_pass (proc : String → Option Bool) (listed : List String)
    (st : Finset String)
    (h1 : (check_new_folders proc listed st).attempted ≠ [])
    (h2 : (check_new_folders proc listed st).raised = false) :
    (check_new_folders proc listed st).saved = true := by
  by_cases hL : newFoldersSorted listed st = []
  · simp [check_new_folders, hL] at h1
  · simp only [check_new_folders] at h2 ⊢
    rw [if_neg hL] at h2 ⊢
    simp only [Bool.not_eq_false] at h2 ⊢
    simp [h2]

/-- C6 (witness: a clean pass over one new folder does save). -/
theorem save_after_clean_pass_witness :
    ((check_new_folders (fun _ : String => (some true : Option Bool)) ["A"] ∅).attempted ≠ [] ∧
      (check_new_folders (fun _ : String => (some true : Option Bool)) ["A"] ∅).raised = false) ∧
    (check_new_folders (fun _ : String => (some true : Option Bool)) ["A"] ∅).saved = true :=
  ⟨⟨by decide, by decide⟩, save_after_clean_pass _ _ _ (by decide) (by decide)⟩

/-- C7: the monitoring loop stops exactly when a keyboard interrupt event
occurs — over any finite event sequence without one, it is still running —
and a caught error is followed by the fixed 5-second recovery wait, while
a clean iteration waits the polling interval. -/
theorem monitoring_stops_only_on_interrupt :
    (∀ evs : List IterEvent, run_monitoring evs = true ↔ IterEvent.interrupt ∈ evs) ∧
    run_monitoring_step IterEvent.error = StepOutcome.continueAfter 5 ∧
    run_monitoring_step IterEvent.interrupt = StepOutcome.stopped ∧
    run_monitoring_step IterEvent.ok = StepOutcome.continueAfter CHECK_INTERVAL := by
  refine ⟨?_, rfl, rfl, rfl⟩
  intro evs
  induction evs with
  | nil => simp [run_monitoring]
  | cons e rest ih => cases e <;> simp [run_monitoring, run_monitoring_step, ih]

/-- C8 (counterexample): on a cold start (no persisted file, so the empty
set is loaded) with one discovered folder whose processing raises, the
backfill does attempt the folder but the set is never persisted and the
polling loop is never entered — the exception is uncaught in `main`. -/
theorem coldstart_backfill_cex :
    load_processed_folders none = (∅ : Finset String) ∧
    (run_initial_processing (fun _ : String => (none : Option Bool)) ["A"] ∅).attempted = ["A"] ∧
    (run_initial_processing (fun _ : String => (none : Option Bool)) ["A"] ∅).saves = 0 ∧
    main_phases (fun _ : String => (none : Option Bool)) none ["A"] = [Phase.backfill] :=
  ⟨by decide, by decide, by decide, by decide⟩

/-- C8 (amended): loading with no prior file yields the empty set, and a
cold-start run in which no folder processing raises performs the backfill
over every discovered folder, persists the set exactly once at its end,
and only then enters the monitoring loop. -/
theorem coldstart_backfill (proc : String → Option Bool) (folders : List String)
    (h : (run_initial_processing proc folders ∅).raised = false) :
    load_processed_folders none = (∅ : Finset String) ∧
    (run_initial_processing proc folders ∅).attempted = folders ∧
    (run_initial_processing proc folders ∅).saves = 1 ∧
    main_phases proc none folders = [Phase.backfill, Phase.monitor] := by
  have hflag : (foldersLoop proc folders ∅).2.2 = false := by
    cases hb : (foldersLoop proc folders ∅).2.2
    · rfl
    · simp [run_initial_processing, hb] at h
  refine ⟨rfl, ?_, ?_, ?_⟩
  · simp only [run_initial_processing, hflag, if_false]
    exact foldersLoop_no_raise proc folders ∅ hflag
  · simp [run_initial_processing, hflag]
  · simp only [main_phases, load_processed_folders, if_pos rfl]
    simp [run_initial_processing, hflag]

/-- C8 (witness: a clean cold start over one folder). -/
theorem coldstart_backfill_witness :
    ((run_initial_processing (fun _ : String => (some true : Option Bool)) ["A"] ∅).raised = false) ∧
    (load_processed_folders none = (∅ : Finset String) ∧
      (run_initial_processing (fun _ : String => (some true : Option Bool)) ["A"] ∅).attempted = ["A"] ∧
      (run_initial_processing (fun _ : String => (some true : Option Bool)) ["A"] ∅).saves = 1 ∧
      main_phases (fun _ : String => (some true : Option Bool)) none ["A"] = [Phase.backfill, Phase.monitor]) :=
  ⟨by decide, coldstart_backfill _ _ (by decide)⟩

/-- C10: the in-memory processed set only grows — both the polling pass
and the backfill pass end with a superset of the set they started from,
with or without an escaping exception — and a folder already in the set is
never handed to `process_folder` again; the save that follows does not
touch the in-memory set, so this holds even when persistence fails. -/
theorem processed_set_monotone :
    (∀ proc listed st, st ⊆ (check_new_folders proc listed st).finalSet) ∧
    (∀ proc folders st, st ⊆ (run_initial_processing proc folders st).finalSet) ∧
    (∀ proc listed st f, f ∈ st → f ∉ (check_new_folders proc listed st).attempted) := by
  refine ⟨?_, ?_, ?_⟩
  · intro proc listed st
    by_cases hL : newFoldersSorted listed st = []
    · simp [check_new_folders, hL]
    · simp only [check_new_folders]
      rw [if_neg hL]
      exact foldersLoop_mono _ _ _
  · intro proc folders st
    have hm := foldersLoop_mono proc folders st
    cases hb : (foldersLoop proc folders st).2.2 <;> simpa [run_initial_processing, hb] using hm
  · intro proc listed st f hf hmem
    exact (Finset.mem_sdiff.mp (check_attempted_mem proc listed st f hmem)).2 hf

/-- C10 (witness: a folder already in the in-memory set is not handed to
the processor again). -/
theorem processed_set_monotone_witness :
    ("A" ∈ ({"A"} : Finset String)) ∧
    "A" ∉ (check_new_folders (fun _ : String => (some true : Option Bool)) ["A", "B"]
        ({"A"} : Finset String)).attempted :=
  ⟨by decide,
    processed_set_monotone.2.2 (fun _ : String => (some true : Option Bool)) ["A", "B"]
      ({"A"} : Finset String) "A" (by decide)⟩


lemma ranges_countP (d : Nat) : ranges.countP (fun r => inRange r d) = 1 := by
  simp only [ranges, inRange, List.countP_cons, List.countP_nil, Bool.and_eq_true,
    decide_eq_true_eq, Bool.and_true]
  split_ifs <;> omega

lemma countP_sum_step (rs : List (Nat × Option Nat)) (d : Nat) (t : List Nat) :
    (rs.map fun r => ((d :: t).filter (inRange r)).length).sum
      = rs.countP (fun r => inRange r d) + (rs.map fun r => (t.filter (inRange r)).length).sum := by
  induction rs with
  | nil => simp
  | cons r rs ih =>
    simp only [List.map_cons, List.sum_cons, List.countP_cons]
    rw [ih, List.filter_cons]
    by_cases h : inRange r d
    · simp only [h, if_true, List.length_cons]
      omega
    · simp [h]
      omega

lemma bucketCounts_sum (ds : List Nat) : (bucketCounts ds).sum = ds.length := by
  induction ds with
  | nil => simp [bucketCounts, ranges]
  | cons d t ih =>
    unfold bucketCounts at ih ⊢
    rw [countP_sum_step, ranges_countP, ih, List.length_cons]
    omega

lemma pyRound_sub_le (q : ℚ) : |(pyRound q : ℚ) - q| ≤ 1 / 2 := by
  have h0 : (⌊q⌋ : ℚ) ≤ q := Int.floor_le q
  have h1 : q < ⌊q⌋ + 1 := Int.lt_floor_add_one q
  unfold pyRound
  split_ifs with ha hb hc <;> rw [abs_le] <;> constructor <;> push_cast <;> linarith

lemma roundTo_one_sub_le (q : ℚ) : |roundTo 1 q - q| ≤ 1 / 20 := by
  have h := pyRound_sub_le (10 * q)
  have key : roundTo 1 q - q = ((pyRound (10 * q) : ℚ) - 10 * q) / 10 := by
    unfold roundTo
    rw [pow_one]
    ring
  rw [key, abs_div, abs_of_nonneg (by norm_num : (0 : ℚ) ≤ 10)]
  linarith

/-- C3: every duration lies in exactly one of the five fixed buckets, the
five bucket counts sum to the sample count, and the five one-decimal
rounded percentages sum to 100 up to the rounding tolerance (at most one
half of a tenth per bucket, so at most a quarter in total). -/
theorem bucket_partition (ds : List Nat) (hne : ds ≠ []) (_hpos : ∀ d ∈ ds, 0 < d) :
    (∀ d ∈ ds, ranges.countP (fun r => inRange r d) = 1) ∧
    (bucketCounts ds).sum = ds.length ∧
    |(bucketPercents ds).sum - 100| ≤ 1 / 4 := by
  refine ⟨fun d _ => ranges_countP d, bucketCounts_sum ds, ?_⟩
  have hT : (0 : ℚ) < (ds.length : ℚ) := by
    have := List.length_pos.mpr hne
    exact_mod_cast this
  have h5 : ((ds.filter (inRange (0, some 1800))).length : ℚ)
        + ((ds.filter (inRange (1800, some 2400))).length : ℚ)
        + ((ds.filter (inRange (2400, some 3000))).length : ℚ)
        + ((ds.filter (inRange (3000, some 3600))).length : ℚ)
        + ((ds.filter (inRange (3600, none))).length : ℚ)
      = (ds.length : ℚ) := by
    have hn := bucketCounts_sum ds
    simp only [bucketCounts, ranges, List.map_cons, List.map_nil, List.sum_cons,
      List.sum_nil] at hn
    have hn2 : (ds.filter (inRange (0, some 1800))).length
        + (ds.filter (inRange (1800, some 2400))).length
        + (ds.filter (inRange (2400, some 3000))).length
        + (ds.filter (inRange (3000, some 3600))).length
        + (ds.filter (inRange (3600, none))).length = ds.length := by omega
    exact_mod_cast hn2
  have hQsum : pct ds (0, some 1800) + pct ds (1800, some 2400) + pct ds (2400, some 3000)
      + pct ds (3000, some 3600) + pct ds (3600, none) = 100 := by
    unfold pct
    field_simp
    linear_combination 100 * h5
  have hPsum : (bucketPercents ds).sum
      = roundTo 1 (pct ds (0, some 1800)) + roundTo 1 (pct ds (1800, some 2400))
        + roundTo 1 (pct ds (2400, some 3000)) + roundTo 1 (pct ds (3000, some 3600))
        + roundTo 1 (pct ds (3600, none)) := by
    simp only [bucketPercents, ranges, List.map_cons, List.map_nil, List.sum_cons,
      List.sum_nil, add_zero]
    ring
  rw [hPsum]
  have b1 := roundTo_one_sub_le (pct ds (0, some 1800))
  have b2 := roundTo_one_sub_le (pct ds (1800, some 2400))
  have b3 := roundTo_one_sub_le (pct ds (2400, some 3000))
  have b4 := roundTo_one_sub_le (pct ds (3000, some 3600))
  have b5 := roundTo_one_sub_le (pct ds (3600, none))
  rw [abs_le] at b1 b2 b3 b4 b5 ⊢
  constructor <;> [linarith [hQsum]; linarith [hQsum]]

/-- C3 (witness at the two-sample folder of the end-to-end scenario:
durations 1500 and 2710 seconds). -/
theorem bucket_partition_witness :
    (([1500, 2710] : List Nat) ≠ [] ∧ ∀ d ∈ ([1500, 2710] : List Nat), 0 < d) ∧
    ((∀ d ∈ ([1500, 2710] : List Nat), ranges.countP (fun r => inRange r d) = 1) ∧
      (bucketCounts [1500, 2710]).sum = ([1500, 2710] : List Nat).length ∧
      |(bucketPercents [1500, 2710]).sum - 100| ≤ 1 / 4) :=
  ⟨⟨by decide, by decide⟩, bucket_partition [1500, 2710] (by decide) (by decide)⟩
